import Mathlib

/-
  Verification of the CalculadoraCO2 repository.

  The development shallowly embeds the two core modules of the repository:

  * `js/calculator.js` — the pure emission / savings / carbon-credit
    calculator (the final version of the file, the one with input
    validation and the `??`-fallback emission factor), together with the
    configuration table from `js/config.js` (`CONFIG.EMISSION_FACTORS`,
    `CONFIG.TRANSPORT_MODES`, `CONFIG.CARBON_CREDIT`);
  * `js/routes-data.js` — the `RoutesDB` place/distance resolver (the final,
    `Map`-based version of the object: `normalizeKey`, `getDistanceCacheKey`,
    `searchCities`, `getCoordinates`, `getRouteDistance`, `findDistance`).

  Modelling conventions:

  * JS strings are sequences of code points (`List Char`).  The code only
    compares, lowercases, trims, and concatenates strings; all witnesses use
    ASCII data, where this model agrees with JS UTF-16 semantics exactly.
  * JS numbers are modelled as rationals (`ℚ`): every finite IEEE-754 double
    is a rational, and the claims under study are about the arithmetic the
    code performs, not about rounding of binary floats.  The special value
    `NaN` and the non-number values (`typeof x !== 'number'`) get their own
    constructors.  The infinities are not modelled; no claim mentions them.
  * The browser `fetch` boundary is an explicit `Net` environment: the
    geocoding endpoint is a function from a query to the parsed candidate
    list (`none` models a network/HTTP/parse failure, which the code
    catches), and the routing endpoint is a function from two coordinate
    records to the reported route length in meters (`none` models any of:
    fetch failure, a non-`Ok` code, an empty `routes` array).
  * Stateful operations of `RoutesDB` are state-passing functions; every
    operation also returns the list of HTTP requests it issued, so that
    "no network call" is a provable statement.
-/

namespace CalculadoraCO2

/-- JS strings, modelled as their sequence of code points. -/
abbrev JSStr := List Char

/-- Lookup in a string-keyed JS object / `Map` (modelled as an association
list in insertion order): property read / `Map.get`. -/
def mapGet {α : Type} : List (JSStr × α) → JSStr → Option α
  | [], _ => none
  | (k, v) :: t, key => if k = key then some v else mapGet t key

/-- Write to a string-keyed JS object / `Map`: `Map.set` overwrites the value
of an existing key in place and appends a fresh key at the end, preserving
insertion order exactly like a JS `Map`. -/
def mapSet {α : Type} : List (JSStr × α) → JSStr → α → List (JSStr × α)
  | [], key, v => [(key, v)]
  | (k, w) :: t, key, v =>
      if k = key then (key, v) :: t else (k, w) :: mapSet t key v

/-- A JS value as seen by the calculator's validation code:
a finite number, the number `NaN`, or any value with `typeof ≠ 'number'`. -/
inductive JSVal where
  | num (q : ℚ)
  | nan
  | nonNumber
deriving DecidableEq

namespace Calculator

/-- CONFIG.EMISSION_FACTORS (config.js): kg CO2 per km for each mode,
a frozen object with insertion order bicycle, car, bus, truck. -/
def EMISSION_FACTORS : List (JSStr × ℚ) :=
  [("bicycle".data, 0), ("car".data, 12/100), ("bus".data, 89/1000), ("truck".data, 96/100)]

/-- Calculator.isValidMode: `mode in CONFIG.EMISSION_FACTORS`. -/
def isValidMode (mode : JSStr) : Bool :=
  (mapGet EMISSION_FACTORS mode).isSome

/-- Calculator.getEmissionFactor: `CONFIG.EMISSION_FACTORS[mode] ?? 0`. -/
def getEmissionFactor (mode : JSStr) : ℚ :=
  (mapGet EMISSION_FACTORS mode).getD 0

/-- Calculator.calculateEmission.  The guard of the source is
`typeof distance !== 'number' || distance < 0 || isNaN(distance)`:
non-numbers fail the first test, a negative number fails the second,
`NaN` fails the third (`NaN < 0` is false, `isNaN(NaN)` is true);
otherwise the result is `distance * factor`. -/
def calculateEmission (mode : JSStr) (distance : JSVal) : ℚ :=
  match distance with
  | .nonNumber => 0
  | .nan => 0
  | .num q => if q < 0 then 0 else q * getEmissionFactor mode

/-- The keys of CONFIG.TRANSPORT_MODES (`Object.keys` returns them in
insertion order: bicycle, car, bus, truck). -/
def TRANSPORT_MODE_IDS : List JSStr :=
  ["bicycle".data, "car".data, "bus".data, "truck".data]

/-- One insertion step of the stable sort performed by
`.sort((a, b) => a.emission - b.emission)`: an element is placed before the
first strictly larger emission, i.e. after every earlier element with an
emission less than or equal to its own. -/
def insertByEmission (x : JSStr × ℚ) : List (JSStr × ℚ) → List (JSStr × ℚ)
  | [] => [x]
  | y :: t => if x.2 ≤ y.2 then x :: y :: t else y :: insertByEmission x t

/-- Stable sort of the mode/emission records by ascending emission,
modelling the (stable, per the ECMAScript specification) `Array.sort`
with comparator `a.emission - b.emission`. -/
def sortByEmission : List (JSStr × ℚ) → List (JSStr × ℚ)
  | [] => []
  | x :: t => insertByEmission x (sortByEmission t)

/-- Calculator.calculateAllModes: one `{id, emission}` record per key of
CONFIG.TRANSPORT_MODES, sorted ascending by emission. -/
def calculateAllModes (distance : JSVal) : List (JSStr × ℚ) :=
  sortByEmission (TRANSPORT_MODE_IDS.map (fun mode => (mode, calculateEmission mode distance)))

/-- Digits of a natural number, as the code points of its decimal notation. -/
def natToChars (n : ℕ) : JSStr :=
  (Nat.repr n).data

/-- Number.prototype.toFixed(1) on a non-negative value: the nearest multiple
of 1/10, ties rounded up (the ECMAScript algorithm picks the larger of two
equally near candidates), printed as integer part, '.', one digit. -/
def toFixed1Nonneg (q : ℚ) : JSStr :=
  natToChars ((⌊q * 10 + 1/2⌋).toNat / 10) ++ '.' :: natToChars ((⌊q * 10 + 1/2⌋).toNat % 10)

/-- Number.prototype.toFixed(1): a negative value is printed as the sign
followed by the rendering of its negation. -/
def jsToFixed1 (q : ℚ) : JSStr :=
  if q < 0 then '-' :: toFixed1Nonneg (-q) else toFixed1Nonneg q

/-- Result record of Calculator.calculateSavings: `savedKg` is a number,
`percentage` is the string produced by `toFixed(1)` (or the literal '0.0'). -/
structure SavingsResult where
  savedKg : ℚ
  percentage : JSStr
deriving DecidableEq

/-- Calculator.calculateSavings: emission saved against the car reference,
clamped at zero, and the percentage of the car emission saved, rendered
with `toFixed(1)`; the percentage is the literal string '0.0' when the car
emission is not positive. -/
def calculateSavings (selectedMode : JSStr) (distance : JSVal) : SavingsResult :=
  let carEmission := calculateEmission "car".data distance
  let selectedEmission := calculateEmission selectedMode distance
  let savedKg := max 0 (carEmission - selectedEmission)
  { savedKg := savedKg
    percentage :=
      if 0 < carEmission then jsToFixed1 (savedKg / carEmission * 100) else "0.0".data }

/-- CONFIG.CARBON_CREDIT.KG_PER_CREDIT. -/
def KG_PER_CREDIT : ℚ := 1000

/-- CONFIG.CARBON_CREDIT.PRICE_MIN_BRL. -/
def PRICE_MIN_BRL : ℚ := 50

/-- CONFIG.CARBON_CREDIT.PRICE_MAX_BRL. -/
def PRICE_MAX_BRL : ℚ := 150

/-- Calculator.calculateCarbonCredits: `emissionKg / KG_PER_CREDIT`, with the
same number/negative/NaN guard as calculateEmission. -/
def calculateCarbonCredits (emissionKg : JSVal) : ℚ :=
  match emissionKg with
  | .nonNumber => 0
  | .nan => 0
  | .num q => if q < 0 then 0 else q / KG_PER_CREDIT

/-- Result record of Calculator.estimateCreditPrice. -/
structure PriceEstimate where
  min : ℚ
  max : ℚ
  average : ℚ
deriving DecidableEq

/-- Calculator.estimateCreditPrice: guard
`typeof credits !== 'number' || credits < 0 || isNaN(credits)` yields the
all-zero record; otherwise min/max scale the credit count by the configured
prices and average is their midpoint. -/
def estimateCreditPrice (credits : JSVal) : PriceEstimate :=
  match credits with
  | .nonNumber => ⟨0, 0, 0⟩
  | .nan => ⟨0, 0, 0⟩
  | .num q =>
      if q < 0 then ⟨0, 0, 0⟩
      else
        let minPrice := q * PRICE_MIN_BRL
        let maxPrice := q * PRICE_MAX_BRL
        ⟨minPrice, maxPrice, (minPrice + maxPrice) / 2⟩

/-- Calculator.calculateTreeEquivalent.  The guard of the source is only
`typeof emissionKg !== 'number' || emissionKg < 0` — unlike the other
validators of the file it does not test `isNaN`, and `NaN < 0` is false, so
a `NaN` input reaches `Math.ceil(NaN / 22)`, which is `NaN`. -/
def calculateTreeEquivalent (emissionKg : JSVal) : JSVal :=
  match emissionKg with
  | .nonNumber => .num 0
  | .nan => .nan
  | .num q => if q < 0 then .num 0 else .num (⌈q / 22⌉ : ℤ)

end Calculator

namespace RoutesDB

/-- A cached place record (`{lat, lon, name}` as stored in `placesCache`,
identical in content to the `{name, lat, lon}` records returned to callers). -/
structure Place where
  name : JSStr
  lat : ℚ
  lon : ℚ
deriving DecidableEq

/-- The `address` sub-object of a Nominatim result.  The code reads these
fields through JS `||` chains, where both a missing field and an empty string
are falsy; both are therefore modelled as the empty string. -/
structure Address where
  city : JSStr
  town : JSStr
  village : JSStr
  municipality : JSStr
  state : JSStr
deriving DecidableEq

/-- One parsed record of the geocoding response: `name`, `lat`, `lon`
(already through `parseFloat`) and the `address` sub-object. -/
structure RawItem where
  name : JSStr
  lat : ℚ
  lon : ℚ
  address : Address
deriving DecidableEq

/-- The mutable state of the `RoutesDB` object: its two `Map` caches. -/
structure RState where
  placesCache : List (JSStr × Place)
  distanceCache : List (JSStr × ℚ)
deriving DecidableEq

/-- An HTTP request issued by the resolver: a geocoding search or a
route-distance query. -/
inductive Req where
  | geo (query : JSStr)
  | route (origin dest : Place)
deriving DecidableEq

/-- The network environment behind `fetch`.  `search` is the geocoding
endpoint: `none` models any failure that the code catches (network error,
non-ok HTTP status, parse error), `some items` a parsed result list.
`route` is the routing endpoint: `some meters` models a response with
`code === 'Ok'` and a non-empty `routes` array carrying that distance in
meters, `none` every failure or no-route outcome. -/
structure Net where
  search : JSStr → Option (List RawItem)
  route : Place → Place → Option ℚ

/-- Result of one resolver operation: its value, the state of the caches
after it, and the HTTP requests it issued. -/
structure Res (α : Type) where
  val : α
  st : RState
  reqs : List Req

/-- RoutesDB.normalizeKey: `str.toLowerCase().trim()`.  Lowercasing is
modelled per code point (the witnesses only use ASCII, where this matches
JS), trimming strips leading and trailing whitespace. -/
def normalizeKey (s : JSStr) : JSStr :=
  (((s.map Char.toLower).dropWhile Char.isWhitespace).reverse.dropWhile Char.isWhitespace).reverse

/-- The strict string order used by the default `Array.sort` comparator:
lexicographic comparison of the code sequences. -/
def lexLt : JSStr → JSStr → Bool
  | [], [] => false
  | [], _ :: _ => true
  | _ :: _, [] => false
  | a :: as, b :: bs => a < b || (a = b && lexLt as bs)

/-- RoutesDB.getDistanceCacheKey: normalize both names, sort the two-element
array with the default comparator (which swaps the pair exactly when the
second sorts strictly below the first) and join with '|'. -/
def getDistanceCacheKey (origin destination : JSStr) : JSStr :=
  let normalizedOrigin := normalizeKey origin
  let normalizedDest := normalizeKey destination
  if lexLt normalizedDest normalizedOrigin then
    normalizedDest ++ '|' :: normalizedOrigin
  else
    normalizedOrigin ++ '|' :: normalizedDest

/-- First truthy string of a JS `||` chain, with a default (used for
`item.address.city || item.address.town || ... || item.name`). -/
def pickFirst : List JSStr → JSStr → JSStr
  | [], dflt => dflt
  | s :: rest, dflt => if s = [] then pickFirst rest dflt else s

/-- The record built for one geocoding candidate inside
`searchCities`'s `data.map`: locality field by priority (city, town,
village, municipality, raw name), display name `city - state` when a state
is present. -/
def shapeItem (it : RawItem) : Place :=
  let city := pickFirst [it.address.city, it.address.town, it.address.village, it.address.municipality] it.name
  let state := it.address.state
  let displayName := if state = [] then city else city ++ " - ".data ++ state
  ⟨displayName, it.lat, it.lon⟩

/-- The cache writes performed by `searchCities`'s `data.map`: every
candidate is stored (with `Map.set`, i.e. overwriting) under its normalized
display name, in response order. -/
def cachePlaces (items : List RawItem) (pc : List (JSStr × Place)) : List (JSStr × Place) :=
  match items with
  | [] => pc
  | it :: rest => cachePlaces rest (mapSet pc (normalizeKey (shapeItem it).name) (shapeItem it))

/-- RoutesDB.searchCities: queries shorter than 3 code points return an empty
list with no request; a failed fetch is caught and returns an empty list;
otherwise every candidate is shaped, cached under its normalized display
name, and the shaped list is returned. -/
def searchCities (net : Net) (query : JSStr) (st : RState) : Res (List Place) :=
  if query.length < 3 then ⟨[], st, []⟩
  else
    match net.search query with
    | none => ⟨[], st, [.geo query]⟩
    | some items =>
        ⟨items.map shapeItem, { st with placesCache := cachePlaces items st.placesCache }, [.geo query]⟩

/-- RoutesDB.getCoordinates: return the cached place for the normalized name
if present; otherwise fall back to `searchCities`, cache the top candidate
under the normalized input name and return it, or return `none` when the
search yields no candidate. -/
def getCoordinates (net : Net) (cityName : JSStr) (st : RState) : Res (Option Place) :=
  let normalizedName := normalizeKey cityName
  match mapGet st.placesCache normalizedName with
  | some p => ⟨some p, st, []⟩
  | none =>
      let r := searchCities net cityName st
      match r.val with
      | [] => ⟨none, r.st, r.reqs⟩
      | bestMatch :: _ =>
          ⟨some bestMatch,
           { r.st with placesCache := mapSet r.st.placesCache (normalizeKey cityName) bestMatch },
           r.reqs⟩

/-- Math.round: nearest integer, ties toward positive infinity. -/
def jsRound (q : ℚ) : ℤ := ⌊q + 1/2⌋

/-- RoutesDB.getRouteDistance: one routing request; on success the meter
distance is converted by `Math.round((d / 1000) * 10) / 10` to kilometers
with one decimal; every failure yields `null`. -/
def getRouteDistance (net : Net) (originCoords destCoords : Place) : Option ℚ × List Req :=
  match net.route originCoords destCoords with
  | some meters => (some ((jsRound (meters / 1000 * 10) : ℚ) / 10), [.route originCoords destCoords])
  | none => (none, [.route originCoords destCoords])

/-- RoutesDB.findDistance: return the cached distance for the symmetric pair
key if present; otherwise resolve both coordinates (the source launches the
two lookups with `Promise.all`; under the single-threaded cooperative model
each lookup completes its cache writes atomically, which this sequential
composition reflects), then — only when both resolved — issue the route
request and cache a successful distance under the pair key before returning
it.  A route failure caches nothing. -/
def findDistance (net : Net) (origin destination : JSStr) (st : RState) : Res (Option ℚ) :=
  let cacheKey := getDistanceCacheKey origin destination
  match mapGet st.distanceCache cacheKey with
  | some v => ⟨some v, st, []⟩
  | none =>
      let ro := getCoordinates net origin st
      let rd := getCoordinates net destination ro.st
      match ro.val, rd.val with
      | some originCoords, some destCoords =>
          match getRouteDistance net originCoords destCoords with
          | (some distance, reqs) =>
              ⟨some distance,
               { rd.st with distanceCache := mapSet rd.st.distanceCache cacheKey distance },
               ro.reqs ++ rd.reqs ++ reqs⟩
          | (none, reqs) => ⟨none, rd.st, ro.reqs ++ rd.reqs ++ reqs⟩
      | _, _ => ⟨none, rd.st, ro.reqs ++ rd.reqs⟩

/-- One public resolver operation, for quantifying over operation
sequences. -/
inductive Op where
  | search (query : JSStr)
  | coords (cityName : JSStr)
  | findDist (origin destination : JSStr)

/-- The cache state reached by one operation. -/
def applyOp (net : Net) (st : RState) : Op → RState
  | .search q => (searchCities net q st).st
  | .coords c => (getCoordinates net c st).st
  | .findDist o d => (findDistance net o d st).st

/-- The cache state reached by a sequence of operations. -/
def runOps (net : Net) (ops : List Op) (st : RState) : RState :=
  match ops with
  | [] => st
  | op :: rest => runOps net rest (applyOp net st op)

end RoutesDB

/-! ## Association-map lemmas -/

theorem mapGet_mapSet_self {α : Type} (l : List (JSStr × α)) (k : JSStr) (v : α) :
    mapGet (mapSet l k v) k = some v := by
  induction l with
  | nil => simp [mapGet, mapSet]
  | cons p t ih =>
    obtain ⟨k', w⟩ := p
    by_cases h : k' = k
    · simp [mapSet, mapGet, h]
    · simp [mapSet, mapGet, h, ih]

theorem mapGet_mapSet_ne {α : Type} (l : List (JSStr × α)) (k k' : JSStr) (v : α)
    (h : k ≠ k') : mapGet (mapSet l k v) k' = mapGet l k' := by
  induction l with
  | nil => simp [mapGet, mapSet, h]
  | cons p t ih =>
    obtain ⟨k'', w⟩ := p
    by_cases h2 : k'' = k
    · subst h2; simp [mapSet, mapGet, h]
    · simp [mapSet, mapGet, h2, ih]

theorem mapGet_mapSet_isSome {α : Type} (l : List (JSStr × α)) (k k' : JSStr) (v : α)
    (h : (mapGet l k').isSome = true) : (mapGet (mapSet l k v) k').isSome = true := by
  by_cases hk : k = k'
  · subst hk; simp [mapGet_mapSet_self]
  · rw [mapGet_mapSet_ne _ _ _ _ hk]; exact h

/-! ## Emission-factor evaluation lemmas -/

theorem factor_bicycle : Calculator.getEmissionFactor ['b','i','c','y','c','l','e'] = 0 := rfl

theorem factor_car : Calculator.getEmissionFactor ['c','a','r'] = 12/100 := rfl

theorem factor_bus : Calculator.getEmissionFactor ['b','u','s'] = 89/1000 := rfl

theorem factor_truck : Calculator.getEmissionFactor ['t','r','u','c','k'] = 96/100 := rfl

/-! ## Stable-sort lemmas -/

theorem insertByEmission_perm (x : JSStr × ℚ) (l : List (JSStr × ℚ)) :
    List.Perm (Calculator.insertByEmission x l) (x :: l) := by
  induction l with
  | nil => simp [Calculator.insertByEmission]
  | cons y t ih =>
    by_cases hxy : x.2 ≤ y.2
    · simp [Calculator.insertByEmission, hxy]
    · simp only [Calculator.insertByEmission, if_neg hxy]
      exact (List.Perm.cons y ih).trans (List.Perm.swap x y t)

theorem sortByEmission_perm (l : List (JSStr × ℚ)) :
    List.Perm (Calculator.sortByEmission l) l := by
  induction l with
  | nil => simp [Calculator.sortByEmission]
  | cons x t ih =>
    exact (insertByEmission_perm x (Calculator.sortByEmission t)).trans (List.Perm.cons x ih)

theorem insertByEmission_pairwise {x : JSStr × ℚ} {l : List (JSStr × ℚ)}
    (h : l.Pairwise (fun a b => a.2 ≤ b.2)) :
    (Calculator.insertByEmission x l).Pairwise (fun a b => a.2 ≤ b.2) := by
  induction l with
  | nil => simp [Calculator.insertByEmission]
  | cons y t ih =>
    rcases List.pairwise_cons.mp h with ⟨hy, ht⟩
    by_cases hxy : x.2 ≤ y.2
    · simp only [Calculator.insertByEmission, if_pos hxy]
      refine List.pairwise_cons.mpr ⟨?_, h⟩
      intro z hz
      rcases List.mem_cons.mp hz with rfl | hz
      · exact hxy
      · exact hxy.trans (hy z hz)
    · simp only [Calculator.insertByEmission, if_neg hxy]
      refine List.pairwise_cons.mpr ⟨?_, ih ht⟩
      intro z hz
      rcases List.mem_cons.mp ((insertByEmission_perm x t).mem_iff.mp hz) with rfl | hz'
      · exact le_of_not_le hxy
      · exact hy z hz'

theorem sortByEmission_pairwise (l : List (JSStr × ℚ)) :
    (Calculator.sortByEmission l).Pairwise (fun a b => a.2 ≤ b.2) := by
  induction l with
  | nil => simp [Calculator.sortByEmission]
  | cons x t ih => exact insertByEmission_pairwise ih

theorem filter_insertByEmission (x : JSStr × ℚ) (l : List (JSStr × ℚ)) (e : ℚ) :
    (Calculator.insertByEmission x l).filter (fun p => decide (p.2 = e)) =
      (x :: l).filter (fun p => decide (p.2 = e)) := by
  induction l with
  | nil => rfl
  | cons y t ih =>
    by_cases hxy : x.2 ≤ y.2
    · simp only [Calculator.insertByEmission, if_pos hxy]
    · simp only [Calculator.insertByEmission, if_neg hxy]
      by_cases hx : x.2 = e
      · have hy : ¬ y.2 = e := fun hy => hxy (le_of_eq (hx.trans hy.symm))
        simp [List.filter_cons, hx, hy, ih]
      · simp [List.filter_cons, hx, ih]

theorem filter_sortByEmission (l : List (JSStr × ℚ)) (e : ℚ) :
    (Calculator.sortByEmission l).filter (fun p => decide (p.2 = e)) =
      l.filter (fun p => decide (p.2 = e)) := by
  induction l with
  | nil => rfl
  | cons x t ih =>
    rw [Calculator.sortByEmission, filter_insertByEmission]
    simp [List.filter_cons, ih]

/-! ## Claims about the emission calculator -/

/-- C1: for every transport mode and every finite distance `d ≥ 0`,
`calculateEmission(mode, d)` is exactly `d` times the mode's configured
emission factor; the factor of an unrecognized mode identifier is `0`
(the `?? 0` fallback), so the emission of an unrecognized mode at any valid
distance is `0`. -/
theorem calculateEmission_mul_factor (mode : JSStr) (q : ℚ) (h : 0 ≤ q) :
    Calculator.calculateEmission mode (.num q) = q * Calculator.getEmissionFactor mode ∧
    (Calculator.isValidMode mode = false →
      Calculator.getEmissionFactor mode = 0 ∧
      Calculator.calculateEmission mode (.num q) = 0) := by
  have hnl : ¬ q < 0 := not_lt.mpr h
  refine ⟨by simp [Calculator.calculateEmission, hnl], fun hinv => ?_⟩
  have hnone : mapGet Calculator.EMISSION_FACTORS mode = none := by
    rcases hm : mapGet Calculator.EMISSION_FACTORS mode with _ | v
    · rfl
    · simp [Calculator.isValidMode, hm] at hinv
  constructor
  · simp [Calculator.getEmissionFactor, hnone]
  · simp [Calculator.calculateEmission, Calculator.getEmissionFactor, hnone, hnl]

/-- Witness for C1 at the unrecognized mode 'plane' and distance 100. -/
theorem calculateEmission_mul_factor_witness :
    0 ≤ (100 : ℚ) ∧
    (Calculator.calculateEmission "plane".data (.num 100) =
        100 * Calculator.getEmissionFactor "plane".data ∧
      (Calculator.isValidMode "plane".data = false →
        Calculator.getEmissionFactor "plane".data = 0 ∧
        Calculator.calculateEmission "plane".data (.num 100) = 0)) :=
  ⟨by norm_num, calculateEmission_mul_factor "plane".data 100 (by norm_num)⟩

/-- C3: for every mode, `calculateEmission` returns `0` on each invalid
distance argument — a negative number, the number `NaN`, or a non-number
value — rather than raising or propagating `NaN`. -/
theorem calculateEmission_invalid_zero :
    (∀ (mode : JSStr) (q : ℚ), q < 0 → Calculator.calculateEmission mode (.num q) = 0) ∧
    (∀ mode : JSStr, Calculator.calculateEmission mode .nan = 0) ∧
    (∀ mode : JSStr, Calculator.calculateEmission mode .nonNumber = 0) := by
  refine ⟨fun mode q hq => ?_, fun mode => rfl, fun mode => rfl⟩
  simp [Calculator.calculateEmission, hq]

/-- Witness for C3 at mode 'car' and distance -5. -/
theorem calculateEmission_invalid_zero_witness :
    (-5 : ℚ) < 0 ∧ Calculator.calculateEmission "car".data (.num (-5)) = 0 :=
  ⟨by norm_num, calculateEmission_invalid_zero.1 "car".data (-5) (by norm_num)⟩

/-- C2: `calculateAllModes(d)` carries exactly one entry per configured mode
(its ids are a permutation of the table keys bicycle, car, bus, truck), is
sorted non-decreasing by emission, breaks emission ties by the table's
insertion order (elements of equal emission appear exactly as in the
insertion-ordered input — the stable-sort property, stated per emission
value via `filter`), and `calculateAllModes(100)` is the concrete ordered
list bicycle 0, bus 8.9, car 12, truck 96. -/
theorem calculateAllModes_sorted_complete :
    (∀ d : JSVal,
      (Calculator.calculateAllModes d).Pairwise (fun a b => a.2 ≤ b.2) ∧
      List.Perm ((Calculator.calculateAllModes d).map Prod.fst) Calculator.TRANSPORT_MODE_IDS ∧
      (∀ e : ℚ,
        (Calculator.calculateAllModes d).filter (fun p => decide (p.2 = e)) =
          (Calculator.TRANSPORT_MODE_IDS.map
              (fun mode => (mode, Calculator.calculateEmission mode d))).filter
            (fun p => decide (p.2 = e)))) ∧
    Calculator.calculateAllModes (.num 100) =
      [("bicycle".data, 0), ("bus".data, 89/10), ("car".data, 12), ("truck".data, 96)] := by
  constructor
  · intro d
    refine ⟨sortByEmission_pairwise _, ?_, fun e => filter_sortByEmission _ _⟩
    have h1 := (sortByEmission_perm
      (Calculator.TRANSPORT_MODE_IDS.map
        (fun mode => (mode, Calculator.calculateEmission mode d)))).map Prod.fst
    simpa [List.map_map, Function.comp_def] using h1
  · norm_num [Calculator.calculateAllModes, Calculator.sortByEmission,
      Calculator.insertByEmission, Calculator.calculateEmission, factor_bicycle,
      factor_car, factor_bus, factor_truck, Calculator.TRANSPORT_MODE_IDS]

theorem jsToFixed1_zero : Calculator.jsToFixed1 0 = "0.0".data := by
  norm_num [Calculator.jsToFixed1, Calculator.toFixed1Nonneg]
  decide

/-- C7: when the selected mode is the car reference mode, `calculateSavings`
reports zero savings for every valid distance: `savedKg` is the number `0`
and `percentage` is zero (rendered by the code as the one-decimal string
'0.0', through `toFixed(1)` when the car emission is positive and as the
literal fallback otherwise). -/
theorem calculateSavings_car_zero (q : ℚ) (_h : 0 ≤ q) :
    Calculator.calculateSavings "car".data (.num q) =
      { savedKg := 0, percentage := "0.0".data } := by
  simp [Calculator.calculateSavings, jsToFixed1_zero]

/-- Witness for C7 at distance 100. -/
theorem calculateSavings_car_zero_witness :
    0 ≤ (100 : ℚ) ∧
    Calculator.calculateSavings "car".data (.num 100) =
      { savedKg := 0, percentage := "0.0".data } :=
  ⟨by norm_num, calculateSavings_car_zero 100 (by norm_num)⟩

/-- C8: for credits `c ≥ 0` the estimate has `min = c * 50`, `max = c * 150`
and `average` exactly `(min + max) / 2`; each invalid input (negative, NaN,
non-number) yields the all-zero record. -/
theorem estimateCreditPrice_spec :
    (∀ q : ℚ, 0 ≤ q →
      (Calculator.estimateCreditPrice (.num q)).min = q * 50 ∧
      (Calculator.estimateCreditPrice (.num q)).max = q * 150 ∧
      (Calculator.estimateCreditPrice (.num q)).average =
        ((Calculator.estimateCreditPrice (.num q)).min +
          (Calculator.estimateCreditPrice (.num q)).max) / 2) ∧
    (∀ q : ℚ, q < 0 → Calculator.estimateCreditPrice (.num q) = ⟨0, 0, 0⟩) ∧
    Calculator.estimateCreditPrice .nan = ⟨0, 0, 0⟩ ∧
    Calculator.estimateCreditPrice .nonNumber = ⟨0, 0, 0⟩ := by
  refine ⟨fun q hq => ?_, fun q hq => ?_, rfl, rfl⟩
  · simp [Calculator.estimateCreditPrice, not_lt.mpr hq,
      Calculator.PRICE_MIN_BRL, Calculator.PRICE_MAX_BRL]
  · simp [Calculator.estimateCreditPrice, hq]

/-- Witness for C8 at 2 credits. -/
theorem estimateCreditPrice_spec_witness :
    0 ≤ (2 : ℚ) ∧
    ((Calculator.estimateCreditPrice (.num 2)).min = 2 * 50 ∧
      (Calculator.estimateCreditPrice (.num 2)).max = 2 * 150 ∧
      (Calculator.estimateCreditPrice (.num 2)).average =
        ((Calculator.estimateCreditPrice (.num 2)).min +
          (Calculator.estimateCreditPrice (.num 2)).max) / 2) :=
  ⟨by norm_num, estimateCreditPrice_spec.1 2 (by norm_num)⟩

/-- C9 (code bug): `calculateTreeEquivalent` does compute `ceil(e / 22)` for
valid `e ≥ 0` and returns `0` for negative and non-number inputs, but its
guard omits the `isNaN` test present in every sibling validator of the file,
so the `NaN` input reaches `Math.ceil(NaN / 22)` and the function returns
`NaN`, not the `0` the claim (and the fail-soft policy of the module)
requires. -/
theorem calculateTreeEquivalent_spec_except_nan :
    (∀ q : ℚ, 0 ≤ q → Calculator.calculateTreeEquivalent (.num q) = .num (⌈q / 22⌉ : ℤ)) ∧
    (∀ q : ℚ, q < 0 → Calculator.calculateTreeEquivalent (.num q) = .num 0) ∧
    Calculator.calculateTreeEquivalent .nonNumber = .num 0 ∧
    Calculator.calculateTreeEquivalent .nan = .nan ∧
    JSVal.nan ≠ JSVal.num 0 := by
  refine ⟨fun q hq => ?_, fun q hq => ?_, rfl, rfl, by simp⟩
  · simp [Calculator.calculateTreeEquivalent, not_lt.mpr hq]
  · simp [Calculator.calculateTreeEquivalent, hq]

/-- Witness for C9's theorem at emission 44 (two trees). -/
theorem calculateTreeEquivalent_spec_except_nan_witness :
    0 ≤ (44 : ℚ) ∧
    Calculator.calculateTreeEquivalent (.num 44) = .num (⌈(44 : ℚ) / 22⌉ : ℤ) :=
  ⟨by norm_num, calculateTreeEquivalent_spec_except_nan.1 44 (by norm_num)⟩

theorem jsToFixed1_nonneg_shape (q : ℚ) (hq : 0 ≤ q) :
    ∃ a b : ℕ, b < 10 ∧
      Calculator.jsToFixed1 q = Calculator.natToChars a ++ '.' :: Calculator.natToChars b := by
  refine ⟨(⌊q * 10 + 1/2⌋).toNat / 10, (⌊q * 10 + 1/2⌋).toNat % 10,
    Nat.mod_lt _ (by norm_num), ?_⟩
  rw [Calculator.jsToFixed1, if_neg (not_lt.mpr hq)]
  rfl

/-- C10: for every mode and every distance value, the `percentage` field of
`calculateSavings` is a decimal string of the `toFixed(1)` shape — decimal
digits of an integer part, a dot, exactly one fractional digit — while
`savedKg` is a number (in the model, `percentage : JSStr` and
`savedKg : ℚ`, matching the source where one is a string and the other a
number). -/
theorem calculateSavings_percentage_string_shape (mode : JSStr) (d : JSVal) :
    ∃ a b : ℕ, b < 10 ∧
      (Calculator.calculateSavings mode d).percentage =
        Calculator.natToChars a ++ '.' :: Calculator.natToChars b := by
  by_cases h : 0 < Calculator.calculateEmission "car".data d
  · have hsk : (0 : ℚ) ≤
        max 0 (Calculator.calculateEmission "car".data d -
          Calculator.calculateEmission mode d) := le_max_left _ _
    have hx : (0 : ℚ) ≤
        max 0 (Calculator.calculateEmission "car".data d -
            Calculator.calculateEmission mode d) /
          Calculator.calculateEmission "car".data d * 100 :=
      mul_nonneg (div_nonneg hsk h.le) (by norm_num)
    have := jsToFixed1_nonneg_shape _ hx
    simpa [Calculator.calculateSavings, h] using this
  · refine ⟨0, 0, by norm_num, ?_⟩
    simp [Calculator.calculateSavings, h]
    rfl

/-! ## String-order lemmas for the symmetric cache key -/

theorem lexLt_asymm : ∀ a b : JSStr, RoutesDB.lexLt a b = true → RoutesDB.lexLt b a = false := by
  intro a
  induction a with
  | nil =>
    intro b h
    cases b with
    | nil => simp [RoutesDB.lexLt] at h
    | cons y ys => rfl
  | cons x xs ih =>
    intro b h
    cases b with
    | nil => simp [RoutesDB.lexLt] at h
    | cons y ys =>
      simp only [RoutesDB.lexLt, Bool.or_eq_true, Bool.and_eq_true, decide_eq_true_eq] at h
      rw [Bool.eq_false_iff]
      intro h2
      simp only [RoutesDB.lexLt, Bool.or_eq_true, Bool.and_eq_true, decide_eq_true_eq,
        ne_eq] at h2
      rcases h with h | ⟨he, hrec⟩
      · rcases h2 with h2 | ⟨he2, _⟩
        · exact lt_asymm h h2
        · exact absurd h (by rw [he2]; exact lt_irrefl x)
      · rcases h2 with h2 | ⟨_, hrec2⟩
        · rw [he] at h2; exact lt_irrefl y h2
        · rw [ih ys hrec] at hrec2; cases hrec2

theorem lexLt_both_false_eq : ∀ a b : JSStr,
    RoutesDB.lexLt a b = false → RoutesDB.lexLt b a = false → a = b := by
  intro a
  induction a with
  | nil =>
    intro b h1 _h2
    cases b with
    | nil => rfl
    | cons y ys => simp [RoutesDB.lexLt] at h1
  | cons x xs ih =>
    intro b h1 h2
    cases b with
    | nil => simp [RoutesDB.lexLt] at h2
    | cons y ys =>
      rw [Bool.eq_false_iff] at h1 h2
      simp only [RoutesDB.lexLt, Bool.or_eq_true, Bool.and_eq_true, decide_eq_true_eq,
        not_or, not_and, ne_eq] at h1 h2
      have hxy : x = y := le_antisymm (not_lt.mp h2.1) (not_lt.mp h1.1)
      subst hxy
      have e1 : RoutesDB.lexLt xs ys = false := by
        rw [Bool.eq_false_iff]; exact h1.2 rfl
      have e2 : RoutesDB.lexLt ys xs = false := by
        rw [Bool.eq_false_iff]; exact h2.2 rfl
      rw [ih ys e1 e2]

/-! ## Resolver lemmas -/

theorem findDistance_cache_hit (net : RoutesDB.Net) (o d : JSStr) (st : RoutesDB.RState)
    (v : ℚ) (h : mapGet st.distanceCache (RoutesDB.getDistanceCacheKey o d) = some v) :
    RoutesDB.findDistance net o d st = ⟨some v, st, []⟩ := by
  simp only [RoutesDB.findDistance, h]

theorem findDistance_val_some_cached (net : RoutesDB.Net) (o d : JSStr)
    (st : RoutesDB.RState) (k : ℚ)
    (h : (RoutesDB.findDistance net o d st).val = some k) :
    mapGet (RoutesDB.findDistance net o d st).st.distanceCache
      (RoutesDB.getDistanceCacheKey o d) = some k := by
  rcases hm : mapGet st.distanceCache (RoutesDB.getDistanceCacheKey o d) with _ | v
  · rcases ho : (RoutesDB.getCoordinates net o st).val with _ | a
    · simp only [RoutesDB.findDistance, hm, ho] at h
      cases h
    · rcases hd : (RoutesDB.getCoordinates net d (RoutesDB.getCoordinates net o st).st).val
        with _ | b
      · simp only [RoutesDB.findDistance, hm, ho, hd] at h
        cases h
      · rcases hr : RoutesDB.getRouteDistance net a b with ⟨rv, rreqs⟩
        cases rv with
        | none =>
          simp only [RoutesDB.findDistance, hm, ho, hd, hr] at h
          cases h
        | some dist =>
          simp only [RoutesDB.findDistance, hm, ho, hd, hr] at h ⊢
          rw [mapGet_mapSet_self]
          exact h
  · simp only [RoutesDB.findDistance, hm] at h ⊢
    exact h

/-- C4: the distance cache key is order-independent —
`getDistanceCacheKey(a, b) = getDistanceCacheKey(b, a)` for all strings —
so `findDistance(a, b)` and `findDistance(b, a)` resolve to the same cache
entry, and after one successful resolution a subsequent call with the
arguments in either order returns the cached value, leaves the caches
untouched and issues no network request. -/
theorem getDistanceCacheKey_symm_and_cached :
    (∀ a b : JSStr, RoutesDB.getDistanceCacheKey a b = RoutesDB.getDistanceCacheKey b a) ∧
    (∀ (net : RoutesDB.Net) (o d : JSStr) (st : RoutesDB.RState) (k : ℚ),
      (RoutesDB.findDistance net o d st).val = some k →
      RoutesDB.findDistance net d o (RoutesDB.findDistance net o d st).st =
        ⟨some k, (RoutesDB.findDistance net o d st).st, []⟩) := by
  have hsym : ∀ a b : JSStr,
      RoutesDB.getDistanceCacheKey a b = RoutesDB.getDistanceCacheKey b a := by
    intro a b
    simp only [RoutesDB.getDistanceCacheKey]
    rcases h1 : RoutesDB.lexLt (RoutesDB.normalizeKey b) (RoutesDB.normalizeKey a) with _ | _
    · rcases h2 : RoutesDB.lexLt (RoutesDB.normalizeKey a) (RoutesDB.normalizeKey b) with _ | _
      · rw [lexLt_both_false_eq _ _ h2 h1]
      · simp [h1, h2]
    · simp [h1, lexLt_asymm _ _ h1]
  refine ⟨hsym, fun net o d st k h => ?_⟩
  have hc := findDistance_val_some_cached net o d st k h
  rw [hsym o d] at hc
  exact findDistance_cache_hit net d o _ k hc

/-- A network on which every request fails; used to witness resolver
theorems whose interesting branches are cache-driven. -/
def constNet : RoutesDB.Net := ⟨fun _ => none, fun _ _ => none⟩

/-- A resolver state whose distance cache already holds the pair
aaa/bbb at 5 km. -/
def stCached : RoutesDB.RState :=
  ⟨[], [(RoutesDB.getDistanceCacheKey "aaa".data "bbb".data, 5)]⟩

/-- Witness for C4: with the aaa/bbb distance cached, the forward call
succeeds and the theorem yields the reversed call as a pure cache hit. -/
theorem getDistanceCacheKey_symm_and_cached_witness :
    (RoutesDB.findDistance constNet "aaa".data "bbb".data stCached).val = some 5 ∧
    RoutesDB.findDistance constNet "bbb".data "aaa".data
        (RoutesDB.findDistance constNet "aaa".data "bbb".data stCached).st =
      ⟨some 5, (RoutesDB.findDistance constNet "aaa".data "bbb".data stCached).st, []⟩ := by
  have h : (RoutesDB.findDistance constNet "aaa".data "bbb".data stCached).val = some 5 := by
    simp [RoutesDB.findDistance, stCached, mapGet]
  exact ⟨h, getDistanceCacheKey_symm_and_cached.2 constNet "aaa".data "bbb".data stCached 5 h⟩

/-! ## Cache-footprint lemmas for the resolver operations -/

theorem searchCities_distanceCache (net : RoutesDB.Net) (q : JSStr) (st : RoutesDB.RState) :
    (RoutesDB.searchCities net q st).st.distanceCache = st.distanceCache := by
  unfold RoutesDB.searchCities
  split
  · rfl
  · split <;> rfl

theorem getCoordinates_distanceCache (net : RoutesDB.Net) (c : JSStr) (st : RoutesDB.RState) :
    (RoutesDB.getCoordinates net c st).st.distanceCache = st.distanceCache := by
  simp only [RoutesDB.getCoordinates]
  split
  · rfl
  · split
    · exact searchCities_distanceCache net c st
    · exact searchCities_distanceCache net c st

theorem cachePlaces_isSome (items : List RoutesDB.RawItem) (pc : List (JSStr × RoutesDB.Place))
    (k : JSStr) (h : (mapGet pc k).isSome = true) :
    (mapGet (RoutesDB.cachePlaces items pc) k).isSome = true := by
  induction items generalizing pc with
  | nil => exact h
  | cons it rest ih => exact ih _ (mapGet_mapSet_isSome _ _ _ _ h)

theorem searchCities_placesCache_isSome (net : RoutesDB.Net) (q : JSStr)
    (st : RoutesDB.RState) (k : JSStr) (h : (mapGet st.placesCache k).isSome = true) :
    (mapGet (RoutesDB.searchCities net q st).st.placesCache k).isSome = true := by
  unfold RoutesDB.searchCities
  split
  · exact h
  · split
    · exact h
    · exact cachePlaces_isSome _ _ _ h

theorem getCoordinates_placesCache_isSome (net : RoutesDB.Net) (c : JSStr)
    (st : RoutesDB.RState) (k : JSStr) (h : (mapGet st.placesCache k).isSome = true) :
    (mapGet (RoutesDB.getCoordinates net c st).st.placesCache k).isSome = true := by
  simp only [RoutesDB.getCoordinates]
  split
  · exact h
  · split
    · exact searchCities_placesCache_isSome net c st k h
    · exact mapGet_mapSet_isSome _ _ _ _ (searchCities_placesCache_isSome net c st k h)

theorem searchCities_reqs_geo (net : RoutesDB.Net) (q : JSStr) (st : RoutesDB.RState) :
    ∀ r ∈ (RoutesDB.searchCities net q st).reqs, ∃ u, r = RoutesDB.Req.geo u := by
  unfold RoutesDB.searchCities
  split
  · intro r hr; cases hr
  · split
    · intro r hr
      rcases List.mem_singleton.mp hr with rfl
      exact ⟨q, rfl⟩
    · intro r hr
      rcases List.mem_singleton.mp hr with rfl
      exact ⟨q, rfl⟩

theorem getCoordinates_reqs_geo (net : RoutesDB.Net) (c : JSStr) (st : RoutesDB.RState) :
    ∀ r ∈ (RoutesDB.getCoordinates net c st).reqs, ∃ u, r = RoutesDB.Req.geo u := by
  simp only [RoutesDB.getCoordinates]
  split
  · intro r hr; cases hr
  · split
    · exact searchCities_reqs_geo net c st
    · exact searchCities_reqs_geo net c st

/-- C5: with the pair not yet cached, `findDistance` (i) returns not-found
without issuing any route request when either place fails to resolve,
leaving the distance cache unchanged; (ii) when both places resolve and the
route call fails, returns not-found with the distance cache unchanged (so
the same inputs can be retried); (iii) when the route call succeeds, returns
the distance and has stored it in the distance cache under the symmetric
pair key. -/
theorem findDistance_failure_and_success_paths (net : RoutesDB.Net)
    (origin destination : JSStr) (st : RoutesDB.RState)
    (hmiss : mapGet st.distanceCache
      (RoutesDB.getDistanceCacheKey origin destination) = none) :
    (((RoutesDB.getCoordinates net origin st).val = none ∨
        (RoutesDB.getCoordinates net destination
          (RoutesDB.getCoordinates net origin st).st).val = none) →
      (RoutesDB.findDistance net origin destination st).val = none ∧
      (∀ r ∈ (RoutesDB.findDistance net origin destination st).reqs,
        ∀ a b, r ≠ RoutesDB.Req.route a b) ∧
      (RoutesDB.findDistance net origin destination st).st.distanceCache =
        st.distanceCache) ∧
    (∀ a b : RoutesDB.Place,
      (RoutesDB.getCoordinates net origin st).val = some a →
      (RoutesDB.getCoordinates net destination
        (RoutesDB.getCoordinates net origin st).st).val = some b →
      (((RoutesDB.getRouteDistance net a b).1 = none →
          (RoutesDB.findDistance net origin destination st).val = none ∧
          (RoutesDB.findDistance net origin destination st).st.distanceCache =
            st.distanceCache) ∧
        (∀ k : ℚ, (RoutesDB.getRouteDistance net a b).1 = some k →
          (RoutesDB.findDistance net origin destination st).val = some k ∧
          mapGet (RoutesDB.findDistance net origin destination st).st.distanceCache
            (RoutesDB.getDistanceCacheKey origin destination) = some k))) := by
  constructor
  · intro hor
    rcases ho : (RoutesDB.getCoordinates net origin st).val with _ | a
    · simp only [RoutesDB.findDistance, hmiss, ho]
      refine ⟨by trivial, ?_, ?_⟩
      · intro r hr a b
        rcases List.mem_append.mp hr with hr | hr
        · rcases getCoordinates_reqs_geo net origin st r hr with ⟨u, rfl⟩
          simp
        · rcases getCoordinates_reqs_geo net destination _ r hr with ⟨u, rfl⟩
          simp
      · rw [getCoordinates_distanceCache, getCoordinates_distanceCache]
    · rcases hd : (RoutesDB.getCoordinates net destination
          (RoutesDB.getCoordinates net origin st).st).val with _ | b
      · simp only [RoutesDB.findDistance, hmiss, ho, hd]
        refine ⟨by trivial, ?_, ?_⟩
        · intro r hr a b
          rcases List.mem_append.mp hr with hr | hr
          · rcases getCoordinates_reqs_geo net origin st r hr with ⟨u, rfl⟩
            simp
          · rcases getCoordinates_reqs_geo net destination _ r hr with ⟨u, rfl⟩
            simp
        · rw [getCoordinates_distanceCache, getCoordinates_distanceCache]
      · rcases hor with h | h
        · rw [ho] at h; cases h
        · rw [hd] at h; cases h
  · intro a b ha hb
    constructor
    · intro hrn
      rcases hr : RoutesDB.getRouteDistance net a b with ⟨rv, rreqs⟩
      rw [hr] at hrn
      cases rv with
      | some w => simp at hrn
      | none =>
        simp only [RoutesDB.findDistance, hmiss, ha, hb, hr]
        exact ⟨by trivial, by rw [getCoordinates_distanceCache, getCoordinates_distanceCache]⟩
    · intro k hrk
      rcases hr : RoutesDB.getRouteDistance net a b with ⟨rv, rreqs⟩
      rw [hr] at hrk
      cases rv with
      | none => simp at hrk
      | some w =>
        obtain rfl : w = k := by simpa using hrk
        simp only [RoutesDB.findDistance, hmiss, ha, hb, hr]
        exact ⟨by trivial, by rw [mapGet_mapSet_self]⟩

/-- Witness for C5: with empty caches and a network on which every request
fails, the origin fails to resolve, so `findDistance` returns not-found
with no route request and an unchanged distance cache. -/
theorem findDistance_failure_and_success_paths_witness :
    mapGet (RoutesDB.RState.mk [] []).distanceCache
      (RoutesDB.getDistanceCacheKey "aaa".data "bbb".data) = none ∧
    ((RoutesDB.findDistance constNet "aaa".data "bbb".data ⟨[], []⟩).val = none ∧
      (∀ r ∈ (RoutesDB.findDistance constNet "aaa".data "bbb".data ⟨[], []⟩).reqs,
        ∀ a b, r ≠ RoutesDB.Req.route a b) ∧
      (RoutesDB.findDistance constNet "aaa".data "bbb".data ⟨[], []⟩).st.distanceCache =
        (RoutesDB.RState.mk [] []).distanceCache) :=
  ⟨rfl,
    (findDistance_failure_and_success_paths constNet "aaa".data "bbb".data ⟨[], []⟩ rfl).1
      (Or.inl (by simp [RoutesDB.getCoordinates, RoutesDB.searchCities, mapGet, constNet]))⟩

theorem findDistance_distanceCache_mono (net : RoutesDB.Net) (o d : JSStr)
    (st : RoutesDB.RState) (k : JSStr) (v : ℚ)
    (h : mapGet st.distanceCache k = some v) :
    mapGet (RoutesDB.findDistance net o d st).st.distanceCache k = some v := by
  rcases hm : mapGet st.distanceCache (RoutesDB.getDistanceCacheKey o d) with _ | w
  · rcases ho : (RoutesDB.getCoordinates net o st).val with _ | a
    · simp only [RoutesDB.findDistance, hm, ho]
      rw [getCoordinates_distanceCache, getCoordinates_distanceCache]
      exact h
    · rcases hd : (RoutesDB.getCoordinates net d (RoutesDB.getCoordinates net o st).st).val
        with _ | b
      · simp only [RoutesDB.findDistance, hm, ho, hd]
        rw [getCoordinates_distanceCache, getCoordinates_distanceCache]
        exact h
      · rcases hr : RoutesDB.getRouteDistance net a b with ⟨rv, rreqs⟩
        cases rv with
        | none =>
          simp only [RoutesDB.findDistance, hm, ho, hd, hr]
          rw [getCoordinates_distanceCache, getCoordinates_distanceCache]
          exact h
        | some dist =>
          simp only [RoutesDB.findDistance, hm, ho, hd, hr]
          have hne : RoutesDB.getDistanceCacheKey o d ≠ k := by
            intro e
            rw [e, h] at hm
            cases hm
          rw [mapGet_mapSet_ne _ _ _ _ hne,
            getCoordinates_distanceCache, getCoordinates_distanceCache]
          exact h
  · simp only [RoutesDB.findDistance, hm]
    exact h

theorem findDistance_placesCache_isSome (net : RoutesDB.Net) (o d : JSStr)
    (st : RoutesDB.RState) (k : JSStr)
    (h : (mapGet st.placesCache k).isSome = true) :
    (mapGet (RoutesDB.findDistance net o d st).st.placesCache k).isSome = true := by
  have h2 := getCoordinates_placesCache_isSome net d
    (RoutesDB.getCoordinates net o st).st k
    (getCoordinates_placesCache_isSome net o st k h)
  rcases hm : mapGet st.distanceCache (RoutesDB.getDistanceCacheKey o d) with _ | w
  · rcases ho : (RoutesDB.getCoordinates net o st).val with _ | a
    · simp only [RoutesDB.findDistance, hm, ho]
      exact h2
    · rcases hd : (RoutesDB.getCoordinates net d (RoutesDB.getCoordinates net o st).st).val
        with _ | b
      · simp only [RoutesDB.findDistance, hm, ho, hd]
        exact h2
      · rcases hr : RoutesDB.getRouteDistance net a b with ⟨rv, rreqs⟩
        cases rv with
        | none =>
          simp only [RoutesDB.findDistance, hm, ho, hd, hr]
          exact h2
        | some dist =>
          simp only [RoutesDB.findDistance, hm, ho, hd, hr]
          exact h2
  · simp only [RoutesDB.findDistance, hm]
    exact h

theorem applyOp_distanceCache_mono (net : RoutesDB.Net) (st : RoutesDB.RState)
    (op : RoutesDB.Op) (k : JSStr) (v : ℚ)
    (h : mapGet st.distanceCache k = some v) :
    mapGet (RoutesDB.applyOp net st op).distanceCache k = some v := by
  cases op with
  | search q => rw [RoutesDB.applyOp, searchCities_distanceCache]; exact h
  | coords c => rw [RoutesDB.applyOp, getCoordinates_distanceCache]; exact h
  | findDist o d => exact findDistance_distanceCache_mono net o d st k v h

theorem applyOp_placesCache_isSome (net : RoutesDB.Net) (st : RoutesDB.RState)
    (op : RoutesDB.Op) (k : JSStr)
    (h : (mapGet st.placesCache k).isSome = true) :
    (mapGet (RoutesDB.applyOp net st op).placesCache k).isSome = true := by
  cases op with
  | search q => exact searchCities_placesCache_isSome net q st k h
  | coords c => exact getCoordinates_placesCache_isSome net c st k h
  | findDist o d => exact findDistance_placesCache_isSome net o d st k h

/-- C6 (amended): across every sequence of `searchCities`, `getCoordinates`
and `findDistance` operations, the distance cache is append-only — a key
present in `distanceCache` keeps its value forever — and `placesCache`
never loses a key; but, contrary to the claim as stated, an existing
`placesCache` entry can be overwritten with a different value, because
`searchCities` unconditionally `Map.set`s every returned candidate under
its display name (see the counterexample). -/
theorem caches_append_only_amended (net : RoutesDB.Net) (ops : List RoutesDB.Op)
    (st : RoutesDB.RState) :
    (∀ (k : JSStr) (v : ℚ), mapGet st.distanceCache k = some v →
      mapGet (RoutesDB.runOps net ops st).distanceCache k = some v) ∧
    (∀ k : JSStr, (mapGet st.placesCache k).isSome = true →
      (mapGet (RoutesDB.runOps net ops st).placesCache k).isSome = true) := by
  induction ops generalizing st with
  | nil => exact ⟨fun k v h => h, fun k h => h⟩
  | cons op rest ih =>
    exact ⟨fun k v h => (ih _).1 k v (applyOp_distanceCache_mono net st op k v h),
      fun k h => (ih _).2 k (applyOp_placesCache_isSome net st op k h)⟩

/-- Witness for C6's amended theorem: a cached aaa/bbb distance survives a
`searchCities` operation on the failing network. -/
theorem caches_append_only_amended_witness :
    mapGet (RoutesDB.RState.mk [] [("aaa|bbb".data, 7)]).distanceCache "aaa|bbb".data =
      some 7 ∧
    mapGet (RoutesDB.runOps constNet [RoutesDB.Op.search "qqq".data]
        ⟨[], [("aaa|bbb".data, 7)]⟩).distanceCache "aaa|bbb".data = some 7 :=
  ⟨by simp [mapGet],
    (caches_append_only_amended constNet [RoutesDB.Op.search "qqq".data]
        ⟨[], [("aaa|bbb".data, 7)]⟩).1 "aaa|bbb".data 7 (by simp [mapGet])⟩

/-- A network making two distinct queries return candidates that share the
display name 'ccc' but carry different coordinates. -/
def collideNet : RoutesDB.Net :=
  { search := fun q =>
      if q = "aaa".data then some [⟨"ccc".data, 1, 1, ⟨[], [], [], [], []⟩⟩]
      else if q = "bbb".data then some [⟨"ccc".data, 2, 2, ⟨[], [], [], [], []⟩⟩]
      else none
    route := fun _ _ => none }

/-- Counterexample to C6 as stated: after `searchCities("aaa")` the key
'ccc' of `placesCache` holds the place at coordinates (1, 1); the subsequent
operation `searchCities("bbb")` overwrites that present key with the place
at (2, 2), a different value. -/
theorem caches_append_only_counterexample :
    mapGet ((RoutesDB.searchCities collideNet "aaa".data ⟨[], []⟩).st).placesCache
        "ccc".data = some ⟨"ccc".data, 1, 1⟩ ∧
    mapGet ((RoutesDB.searchCities collideNet "bbb".data
          (RoutesDB.searchCities collideNet "aaa".data ⟨[], []⟩).st).st).placesCache
        "ccc".data = some ⟨"ccc".data, 2, 2⟩ ∧
    (RoutesDB.Place.mk "ccc".data 1 1 ≠ RoutesDB.Place.mk "ccc".data 2 2) := by
  refine ⟨by decide, by decide, by decide⟩

end CalculadoraCO2
